import Mathlib

/-!
Shallow embedding of the nanobanana proxy (src/main.ts, backend variant A
targeting OpenRouter, and src/unnamed/part_000, backend variant B targeting
the Gemini API).  Pure string/list manipulation is modelled directly;
network calls are abstracted as oracle functions passed to the dispatcher;
JavaScript truthiness of possibly-absent string fields is modelled with
`Option String` (absent = `none`, the empty string is falsy).
-/

set_option maxRecDepth 4000

instance {ε α : Type} [DecidableEq ε] [DecidableEq α] : DecidableEq (Except ε α) := fun a b =>
  match a, b with
  | .error e₁, .error e₂ => decidable_of_iff (e₁ = e₂) (by simp)
  | .ok a₁, .ok a₂ => decidable_of_iff (a₁ = a₂) (by simp)
  | .error _, .ok _ => isFalse (by simp)
  | .ok _, .error _ => isFalse (by simp)

/-- Characters treated as whitespace by JavaScript `String.prototype.trim`
(the common ones; used by the `.trim()` calls in both variants). -/
def isJsWs (c : Char) : Bool :=
  c = ' ' || c = '\t' || c = '\n' || c = '\r' || c = '\x0b' || c = '\x0c' ||
  c = '\u00A0' || c = '\uFEFF' || c = '\u2028' || c = '\u2029'

/-- Drop leading and trailing whitespace from a character list. -/
def trimChars (l : List Char) : List Char :=
  ((l.dropWhile isJsWs).reverse.dropWhile isJsWs).reverse

/-- Model of JavaScript `s.trim()`. -/
def jsTrim (s : String) : String := ⟨trimChars s.data⟩

/-- Model of JavaScript `s.toLowerCase()` (character-wise lowering). -/
def strToLower (s : String) : String := ⟨s.data.map Char.toLower⟩

/-- Model of JavaScript `s.startsWith(p)`. -/
def strStartsWith (s p : String) : Bool := p.data.isPrefixOf s.data

/-- Does `needle` occur as a contiguous substring of `hay`?
Model of JavaScript `hay.includes(needle)`. -/
def listContainsSub (hay needle : List Char) : Bool :=
  (List.range (hay.length + 1)).any (fun i => needle.isPrefixOf (hay.drop i))

/-- Model of JavaScript `hay.includes(needle)` on strings. -/
def strIncludes (hay needle : String) : Bool := listContainsSub hay.data needle.data

/-- JavaScript line terminators, which `.` in a regex does not match. -/
def notLineTerm (c : Char) : Bool :=
  !(c = '\n' || c = '\r' || c = '\u2028' || c = '\u2029')

/-- The base64 alphabet (standard, with padding). -/
def isBase64Char (c : Char) : Bool :=
  c.isAlphanum || c = '+' || c = '/' || c = '='

/-- The literal separator of a base64 data-URI. -/
def sepStr : String := ";base64,"

/-- Split positions at which the anchored greedy regex
`^data:(.+);base64,(.*)$` can cut the part after `data:`:
a position `i` qualifies when the first capture (`take i`) is non-empty and
free of line terminators, the literal `;base64,` follows, and the second
capture (the remainder) is free of line terminators. -/
def matchCandidates (l : List Char) : List Nat :=
  (List.range (l.length + 1)).filter (fun i =>
    decide (1 ≤ i) && (l.take i).all notLineTerm &&
    sepStr.data.isPrefixOf (l.drop i) &&
    ((l.drop i).drop 8).all notLineTerm)

/-- Model of matching `/^data:(.+);base64,(.*)$/` against `s`
(main.ts lines 170 and 216).  Greedy `(.+)` means the largest viable split
position wins, hence `getLast?` of the increasing candidate list. -/
def dataUriMatch (s : String) : Option (String × String) :=
  if "data:".data.isPrefixOf s.data then
    match (matchCandidates (s.data.drop 5)).getLast? with
    | some i => some (⟨(s.data.drop 5).take i⟩, ⟨((s.data.drop 5).drop i).drop 8⟩)
    | none => none
  else none

/-- Model of `content.split(/data:(.+);base64,(.*)/).filter(Boolean)`
followed by array destructuring into `[mimeType, base64Data]`
(part_000 lines 163, 249, 304), for contents that either match the regex in
full or contain no match at all — which covers every data-URI-shaped string
produced by `callGemini`.  For a full match the surrounding split pieces are
empty strings and `filter(Boolean)` removes them, as well as an empty
capture, shifting the destructure. -/
def splitDestructure (s : String) : Option String × Option String :=
  match dataUriMatch s with
  | some (m, d) => if d = "" then (some m, none) else (some m, some d)
  | none => if s = "" then (none, none) else (some s, none)

/-- The `if (mimeType && base64Data)` guarded decode of variant B
(part_000 lines 249-255): both destructured pieces must be truthy. -/
def bParse (s : String) : Option (String × String) :=
  match splitDestructure s with
  | (some m, some d) => some (m, d)
  | _ => none

/-- The data-URI encoding `data:<mimeType>;base64,<data>` used when
sending inline media upstream (main.ts line 152) and when wrapping a
Gemini inline image reply (part_000 line 60). -/
def dataUriEncode (m d : String) : String :=
  "data:" ++ m ++ sepStr ++ d

/-- Inline media payload `{mimeType, data}` as it appears in Gemini-style
parts. -/
structure InlineData where
  mimeType : String
  data : String
deriving DecidableEq

/-- A Gemini-style content part.  `extra` stands for any unrecognized
fields such a JSON part object may carry (so that passing a part through
unchanged is observable). -/
structure GPart where
  text : Option String
  inlineData : Option InlineData
  extra : Option String := none
deriving DecidableEq

instance : Inhabited GPart := ⟨⟨none, none, none⟩⟩

/-- A Gemini-style message `{role, parts}`. -/
structure GMessage where
  role : String
  parts : List GPart
deriving DecidableEq

instance : Inhabited GMessage := ⟨⟨"", []⟩⟩

/-- An OpenRouter-style content part produced by variant A's request
conversion: `{type:"text", text}` or `{type:"image_url", image_url:{url}}`. -/
inductive ORPart where
  | text (value : String)
  | imageUrl (url : String)
deriving DecidableEq

/-- An OpenRouter-style message `{role, content}` (variant A). -/
structure ORMessage where
  role : String
  content : List ORPart
deriving DecidableEq

/-- The `image_url` object of an OpenRouter reply image (`url` may be
absent). -/
structure ORImageUrl where
  url : Option String
deriving DecidableEq

/-- One entry of an OpenRouter reply `message.images` array. -/
structure ORImageEntry where
  image_url : Option ORImageUrl
deriving DecidableEq

/-- The `choices[0].message` object of an OpenRouter reply: an optional
`images` array and an optional string `content`. -/
structure ORMsg where
  images : Option (List ORImageEntry)
  content : Option String
deriving DecidableEq

/-- Result kind of a dispatch: `'image' | 'text'`. -/
inductive RKind where
  | image
  | text
deriving DecidableEq

/-- The `{type, content}` value returned by `callOpenRouter` / `callGemini`. -/
structure UpstreamResult where
  kind : RKind
  content : String
deriving DecidableEq

/-- The placeholder both variants substitute for an empty reply
(main.ts line 125, part_000 line 76). -/
def noContentPlaceholder : String := "[模型没有返回有效内容]"

/-! ## Variant A request conversion (main.ts lines 151-154) -/

/-- The false branch of `p.text ? ... : ...`: variant A unconditionally
reads `p.inlineData.mimeType`, so a part without `inlineData` raises a
TypeError (modelled as `.error "TypeError"`). -/
def imageBranchA (p : GPart) : Except String ORPart :=
  match p.inlineData with
  | some idta => .ok (.imageUrl (dataUriEncode idta.mimeType idta.data))
  | none => .error "TypeError"

/-- Variant A part conversion
`p.text ? {type:"text",text:p.text} : {type:"image_url", image_url:{url:...}}`.
A present-but-empty `text` is falsy and also takes the image branch. -/
def toUpstreamA (p : GPart) : Except String ORPart :=
  match p.text with
  | some t => if t ≠ "" then .ok (.text t) else imageBranchA p
  | none => imageBranchA p

/-- Variant A message conversion (main.ts line 153): every non-`model`
role collapses to `user`; `model` becomes `assistant`. -/
def openrouterMessageOf (msg : GMessage) : Except String ORMessage :=
  (msg.parts.mapM toUpstreamA).map
    (fun parts => ⟨if msg.role = "model" then "assistant" else "user", parts⟩)

/-! ## Variant B request conversion (part_000 lines 123-136 and 234-241) -/

/-- Variant B part conversion: `inlineData` is forwarded, truthy `text` is
trimmed, and anything else is returned unchanged. -/
def toUpstreamB (p : GPart) : GPart :=
  match p.inlineData with
  | some idta => ⟨none, some idta, none⟩
  | none =>
    match p.text with
    | some t => if t ≠ "" then ⟨some (jsTrim t), none, none⟩ else p
    | none => p

/-- Variant B message conversion (part_000 lines 123-124): `model` becomes
`assistant`, every other role is kept as-is. -/
def geminiMessageOf (msg : GMessage) : GMessage :=
  ⟨if msg.role = "model" then "assistant" else msg.role,
   msg.parts.map toUpstreamB⟩

/-! ## Variant A dispatcher (main.ts lines 9-126) -/

/-- The free (primary) model tier of variant A. -/
def ORMODELS_free : String := "google/gemini-2.5-flash-image-preview:free"

/-- The paid (fallback) model tier of variant A. -/
def ORMODELS_paid : String := "google/gemini-2.5-flash-image-preview"

/-- The quota-failure phrases of main.ts lines 81-87. -/
def quotaPhrases : List String :=
  ["quota exhausted", "insufficient quota", "free quota", "rate limit", "daily limit"]

/-- The quota classifier: the lowercased error text contains one of the
phrases (main.ts line 87). -/
def isQuotaMsg (msg : String) : Bool :=
  quotaPhrases.any (fun p => strIncludes (strToLower msg) p)

/-- Outcome of one `makeRequest` round-trip: the `ok` flag, the stringified
`responseData.error` (relevant when not ok), and `choices[0].message`
(relevant when ok). -/
structure ReqOutcome where
  ok : Bool
  errorStr : String
  message : Option ORMsg

/-- The truthy `message?.images?.[0]?.image_url?.url` chain of main.ts
line 110: only the FIRST entry of `images` is consulted, and an empty url
string is falsy. -/
def firstImageUrl (m : ORMsg) : Option String :=
  match m.images with
  | some (e :: _) =>
    match e.image_url with
    | some iu =>
      match iu.url with
      | some u => if u = "" then none else some u
      | none => none
    | none => none
  | _ => none

/-- Reply interpretation of main.ts lines 107-125: first image entry wins,
then a `data:image/`-prefixed content string, then non-blank text, then the
placeholder. -/
def parseORReply (msg? : Option ORMsg) : UpstreamResult :=
  match msg? with
  | none => ⟨.text, noContentPlaceholder⟩
  | some m =>
    match firstImageUrl m with
    | some u => ⟨.image, u⟩
    | none =>
      match m.content with
      | some c =>
        if strStartsWith c "data:image/" then ⟨.image, c⟩
        else if jsTrim c ≠ "" then ⟨.text, c⟩
        else ⟨.text, noContentPlaceholder⟩
      | none => ⟨.text, noContentPlaceholder⟩

/-- The final step of `callOpenRouter` (main.ts lines 98-125): throw on a
failed final attempt (with `'Unknown error'` substituted for a falsy error
body), otherwise parse the reply. -/
def finalizeOR (model : String) (r : ReqOutcome) : Except String UpstreamResult :=
  if r.ok then .ok (parseORReply r.message)
  else .error ("OpenRouter API error with model " ++ model ++ ": " ++
               (if r.errorStr = "" then "Unknown error" else r.errorStr))

/-- `callOpenRouter` (main.ts lines 9-126) with the network abstracted as
`attempt model messages apiKey`.  Returns the list of upstream calls issued
(model, messages, credential) together with the final outcome.  The
free-tier attempt comes first; on a failure classified as quota exhaustion
(while the current model is the free one) exactly one retry against the
paid tier happens. -/
def callOpenRouter {μ : Type} (attempt : String → μ → String → ReqOutcome)
    (messages : μ) (apiKey : String) :
    List (String × μ × String) × Except String UpstreamResult :=
  if apiKey = "" then ([], .error "callOpenRouter received an empty apiKey.")
  else
    let r1 := attempt ORMODELS_free messages apiKey
    if !r1.ok && isQuotaMsg r1.errorStr && (ORMODELS_free == ORMODELS_free) then
      let r2 := attempt ORMODELS_paid messages apiKey
      ([(ORMODELS_free, messages, apiKey), (ORMODELS_paid, messages, apiKey)],
       finalizeOR ORMODELS_paid r2)
    else
      ([(ORMODELS_free, messages, apiKey)], finalizeOR ORMODELS_free r1)

/-! ## Variant B reply parsing (part_000 lines 45-77) -/

/-- One candidate's `content` object of a Gemini reply. -/
structure GContent where
  parts : List GPart
deriving DecidableEq

/-- One entry of `responseData.candidates`. -/
structure GCandidate where
  content : Option GContent
deriving DecidableEq

/-- A Gemini reply body. -/
structure GResponse where
  candidates : List GCandidate
deriving DecidableEq

/-- The data-URI a reply part contributes when its `inlineData.mimeType`
starts with `image/` (part_000 lines 59-61). -/
def imageURIOf (p : GPart) : Option String :=
  match p.inlineData with
  | some idta =>
    if strStartsWith idta.mimeType "image/" then
      some (dataUriEncode idta.mimeType idta.data)
    else none
  | none => none

/-- One iteration of the part_000 lines 57-66 loop: a later image
overwrites `imageContent`, truthy trimmed text appends to `textContent`. -/
def scanStep (acc : String × String) (p : GPart) : String × String :=
  let img :=
    match imageURIOf p with
    | some u => u
    | none => acc.1
  let txt :=
    match p.text with
    | some t => if t ≠ "" && jsTrim t ≠ "" then acc.2 ++ jsTrim t ++ "\n" else acc.2
    | none => acc.2
  (img, txt)

/-- The full loop of part_000 lines 55-66, starting from empty
accumulators. -/
def scanParts (ps : List GPart) : String × String := ps.foldl scanStep ("", "")

/-- The data-URI of the last image part, if any (what variant B's
overwrite-in-a-loop ends up keeping). -/
def lastImageURI (ps : List GPart) : Option String :=
  (ps.filterMap imageURIOf).getLast?

/-- Reply interpretation of `callGemini` (part_000 lines 49-76): a missing
candidate/content or an empty parts list throws, otherwise image beats
text, and an empty scan yields the placeholder. -/
def callGeminiParse (resp : GResponse) : Except String UpstreamResult :=
  match resp.candidates.head? with
  | some cand =>
    match cand.content with
    | some cont =>
      if cont.parts.isEmpty then .error "Gemini response has no valid parts"
      else
        let s := scanParts cont.parts
        if s.1 ≠ "" then .ok ⟨.image, s.1⟩
        else if jsTrim s.2 ≠ "" then .ok ⟨.text, jsTrim s.2⟩
        else .ok ⟨.text, noContentPlaceholder⟩
    | none => .error "Gemini response has no valid parts"
  | none => .error "Gemini response has no valid parts"

/-! ## History windower (main.ts lines 146-149, part_000 lines 110-119) -/

/-- The largest index whose element satisfies `p` (which may also inspect
the index), as an `Option`. -/
def lastIdxWhereI {α : Type} [Inhabited α] (l : List α) (p : Nat → α → Bool) : Option Nat :=
  ((List.range l.length).filter (fun i => p i (l.getD i default))).getLast?

/-- Model of JavaScript `Array.prototype.findLastIndex` with an
index-aware predicate: the index of the last match, or `-1`. -/
def findLastIndexI {α : Type} [Inhabited α] (l : List α) (p : Nat → α → Bool) : Int :=
  match lastIdxWhereI l p with
  | some n => (n : Int)
  | none => -1

/-- `findLastIndex` with an element-only predicate. -/
def findLastIndexP {α : Type} [Inhabited α] (l : List α) (p : α → Bool) : Int :=
  findLastIndexI l (fun _ a => p a)

/-- Model of JavaScript `Array.prototype.slice(s, e)` including the
negative-index convention (an index below zero counts from the end). -/
def jsSlice {α : Type} (l : List α) (s e : Int) : List α :=
  let len : Int := l.length
  let s' := if s < 0 then max (len + s) 0 else min s len
  let e' := if e < 0 then max (len + e) 0 else min e len
  (l.take e'.toNat).drop s'.toNat

/-- Variant A window extraction (main.ts lines 146-148): note that when no
prior `model` message exists, `findLastIndex` yields `-1` and
`slice(-1, u+1)` starts from the LAST element of the history. -/
def relevantHistoryA (h : List GMessage) : List GMessage :=
  let u := findLastIndexP h (fun m => m.role == "user")
  let base :=
    if u ≠ -1 then
      jsSlice h (findLastIndexI h (fun i m => m.role == "model" && decide ((i : Int) < u))) (u + 1)
    else []
  if base.length = 0 ∧ u ≠ -1 then [h.getD u.toNat default] else base

/-- Variant B window extraction (part_000 lines 110-116): an absent prior
`model` message is mapped to slice start `0`. -/
def relevantHistoryB (h : List GMessage) : List GMessage :=
  let u := findLastIndexP h (fun m => m.role == "user")
  if u ≠ -1 then
    let mi := findLastIndexI h (fun i m => m.role == "model" && decide ((i : Int) < u))
    jsSlice h (if mi = -1 then 0 else mi) (u + 1)
  else []

/-- Index of the last `user` message (claim-side helper). -/
def lastUserIdx (h : List GMessage) : Option Nat :=
  lastIdxWhereI h (fun _ m => m.role == "user")

/-- Index of the last `model` message strictly before `u`
(claim-side helper). -/
def lastModelBefore (h : List GMessage) (u : Nat) : Option Nat :=
  lastIdxWhereI h (fun i m => m.role == "model" && decide (i < u))

/-- Modelled from the claim's words: the window is the contiguous
inclusive slice from the last `model` message strictly before the last
`user` message up to that `user` message, or the whole history up to the
last `user` message when no such `model` message exists. -/
def claimWindow (h : List GMessage) : List GMessage :=
  match lastUserIdx h with
  | none => []
  | some u =>
    match lastModelBefore h u with
    | some mi => (h.take (u + 1)).drop mi
    | none => h.take (u + 1)

/-! ## Stream synthesis (main.ts lines 157-186, part_000 lines 139-193) -/

/-- One emitted server-sent event frame. -/
inductive SEvent where
  | textDelta (s : String)
  | inlineImage (mimeType data : Option String)
  | finish
  | doneObj
  | doneSentinel
  | errorEvent (msg : String)
deriving DecidableEq

/-- The fixed lead-in text preceding a generated image. -/
def imageLeadIn : String := "好的，图片已生成："

/-- The event sequence emitted by variant A's stream body (main.ts lines
158-184), as a function of the `callOpenRouter` outcome.  On a throw, the
catch block emits a single error frame and the stream is closed without the
`[DONE]` sentinel. -/
def streamEventsA (call : Except String UpstreamResult) : List SEvent :=
  match call with
  | .error e => [.errorEvent e]
  | .ok r =>
    let textToStream := if r.kind = RKind.image then imageLeadIn else r.content
    (textToStream.data.map (fun c => SEvent.textDelta (String.singleton c))) ++
    (if r.kind = RKind.image then
      match dataUriMatch r.content with
      | some (mi, di) => [SEvent.inlineImage (some mi) (some di)]
      | none => []
     else []) ++
    [SEvent.finish, SEvent.doneSentinel]

/-- The event sequence emitted by variant B's stream body (part_000 lines
140-191): text results stream per character, image results emit one inline
frame (via the unchecked split destructure), and success additionally emits
a `{done:true}` frame before the `[DONE]` sentinel.  On a throw, only an
error frame is emitted. -/
def streamEventsB (call : Except String UpstreamResult) : List SEvent :=
  match call with
  | .error e => [.errorEvent e]
  | .ok r =>
    (if r.kind = RKind.text then
      r.content.data.map (fun c => SEvent.textDelta (String.singleton c))
     else []) ++
    (if r.kind = RKind.image then
      [SEvent.inlineImage (splitDestructure r.content).1 (splitDestructure r.content).2]
     else []) ++
    [SEvent.finish, SEvent.doneObj, SEvent.doneSentinel]

/-! ## Claim C1: quota-triggered fallback -/

/-- C1: for every dispatch whose primary-tier (free-model) attempt fails
with an error body containing one of the quota phrases, `callOpenRouter`
issues exactly one additional upstream call, against the fallback (paid)
tier with the same messages and credential, the final outcome is taken
solely from that second attempt, and a failure on the fallback tier is
terminal (it surfaces the upstream error with no further retry). -/
theorem C1_quota_fallback {μ : Type} (attempt : String → μ → String → ReqOutcome)
    (messages : μ) (apiKey : String) (hk : apiKey ≠ "")
    (h1 : (attempt ORMODELS_free messages apiKey).ok = false)
    (hq : isQuotaMsg (attempt ORMODELS_free messages apiKey).errorStr = true) :
    (callOpenRouter attempt messages apiKey).1 =
      [(ORMODELS_free, messages, apiKey), (ORMODELS_paid, messages, apiKey)] ∧
    (callOpenRouter attempt messages apiKey).2 =
      finalizeOR ORMODELS_paid (attempt ORMODELS_paid messages apiKey) ∧
    ((attempt ORMODELS_paid messages apiKey).ok = false →
      (callOpenRouter attempt messages apiKey).2 =
        .error ("OpenRouter API error with model " ++ ORMODELS_paid ++ ": " ++
          (if (attempt ORMODELS_paid messages apiKey).errorStr = "" then "Unknown error"
           else (attempt ORMODELS_paid messages apiKey).errorStr))) := by
  unfold callOpenRouter
  rw [if_neg hk]
  simp only [h1, hq, Bool.not_false, Bool.true_and, beq_self_eq_true, Bool.and_true, if_true]
  refine ⟨trivial, trivial, fun h2 => ?_⟩
  simp [finalizeOR, h2]

/-- A concrete oracle: the free tier fails with a quota message, the paid
tier succeeds with a text reply. -/
def testAttempt : String → String → String → ReqOutcome := fun model _ _ =>
  if model = ORMODELS_free then ⟨false, "Insufficient Quota: free tier exhausted", none⟩
  else ⟨true, "", some ⟨none, some "hello"⟩⟩

theorem C1_quota_fallback_witness :
    (callOpenRouter testAttempt "w" "k").1 =
      [(ORMODELS_free, "w", "k"), (ORMODELS_paid, "w", "k")] ∧
    (callOpenRouter testAttempt "w" "k").2 =
      finalizeOR ORMODELS_paid (testAttempt ORMODELS_paid "w" "k") := by
  have h := C1_quota_fallback testAttempt "w" "k" (by decide) (by decide) (by decide)
  exact ⟨h.1, h.2.1⟩

/-! ## Claim C10: role collapsing -/

/-- C10: in variant A's message conversion every non-`model` role is sent
upstream as `user`, while variant B preserves non-`model` roles as-is. -/
theorem C10_role_collapse (msg : GMessage) (hr : msg.role ≠ "model") :
    (∀ ms, openrouterMessageOf msg = .ok ms → ms.role = "user") ∧
    (geminiMessageOf msg).role = msg.role := by
  constructor
  · intro ms hms
    unfold openrouterMessageOf at hms
    cases hmp : msg.parts.mapM toUpstreamA with
    | error e => rw [hmp] at hms; simp [Except.map] at hms
    | ok ps =>
      rw [hmp] at hms
      simp only [Except.map, Except.ok.injEq] at hms
      rw [← hms]
      simp [hr]
  · simp [geminiMessageOf, hr]

theorem C10_role_collapse_witness :
    (∀ ms, openrouterMessageOf ⟨"system", []⟩ = .ok ms → ms.role = "user") ∧
    (geminiMessageOf ⟨"system", []⟩).role = "system" :=
  C10_role_collapse ⟨"system", []⟩ (by decide)

/-! ## Claim C8: stream events for a Text result -/

/-- C8 (amended): on the Text result `"AB"`, variant A's stream emits
exactly the four events — delta `"A"`, delta `"B"`, finish, `[DONE]`
sentinel — while variant B emits five, inserting a `{done:true}` frame
before the sentinel. -/
theorem C8_text_stream_events :
    streamEventsA (.ok ⟨RKind.text, "AB"⟩) =
      [SEvent.textDelta "A", SEvent.textDelta "B", SEvent.finish, SEvent.doneSentinel] ∧
    streamEventsB (.ok ⟨RKind.text, "AB"⟩) =
      [SEvent.textDelta "A", SEvent.textDelta "B", SEvent.finish, SEvent.doneObj,
       SEvent.doneSentinel] := by decide

/-- C8 counterexample: variant B's stream on `Text "AB"` does not consist
of exactly the four claimed events. -/
theorem C8_counterexample :
    streamEventsB (.ok ⟨RKind.text, "AB"⟩) ≠
      [SEvent.textDelta "A", SEvent.textDelta "B", SEvent.finish, SEvent.doneSentinel] := by
  decide

/-! ## Claim C4: mid-stream failures and the termination sentinel -/

/-- C4 (amended): when result construction raises mid-stream, both stream
bodies emit exactly one in-band error event carrying the failure detail and
close the stream without emitting the `[DONE]` termination sentinel; every
successful event sequence does end with the sentinel. -/
theorem C4_stream_error_handling (e : String) (r : UpstreamResult) :
    streamEventsA (.error e) = [SEvent.errorEvent e] ∧
    streamEventsB (.error e) = [SEvent.errorEvent e] ∧
    (streamEventsA (.ok r)).getLast? = some SEvent.doneSentinel ∧
    (streamEventsB (.ok r)).getLast? = some SEvent.doneSentinel := by
  refine ⟨rfl, rfl, ?_, ?_⟩
  · simp [streamEventsA, List.getLast?_append]
  · simp [streamEventsB, List.getLast?_append]

/-- C4 counterexample: a construction failure produces an event sequence
whose final event is the error frame, not the termination sentinel. -/
theorem C4_counterexample :
    streamEventsA (.error "boom") = [SEvent.errorEvent "boom"] ∧
    SEvent.errorEvent "boom" ≠ SEvent.doneSentinel := by decide

/-! ## Claim C9: unrecognized parts -/

/-- C9 (amended): a part carrying neither a text field nor an inline-media
field is passed through unchanged by variant B's request conversion, but
variant A's conversion raises (a TypeError from reading
`p.inlineData.mimeType`) on such a part. -/
theorem C9_passthrough (p : GPart) (ht : p.text = none) (hi : p.inlineData = none) :
    toUpstreamB p = p ∧ toUpstreamA p = .error "TypeError" := by
  constructor
  · simp [toUpstreamB, hi, ht]
  · simp [toUpstreamA, ht, imageBranchA, hi]

theorem C9_passthrough_witness :
    toUpstreamB ⟨none, none, some "functionCall"⟩ = ⟨none, none, some "functionCall"⟩ ∧
    toUpstreamA ⟨none, none, some "functionCall"⟩ = .error "TypeError" :=
  C9_passthrough ⟨none, none, some "functionCall"⟩ rfl rfl

/-- C9 counterexample: variant A raises on a part with neither field,
instead of passing it through. -/
theorem C9_counterexample :
    toUpstreamA ⟨none, none, some "functionCall"⟩ = .error "TypeError" := by decide

/-! ## Trimming and scan-loop lemmas -/

theorem dropWhile_idem {α : Type} (p : α → Bool) (l : List α) :
    (l.dropWhile p).dropWhile p = l.dropWhile p := by
  induction l with
  | nil => rfl
  | cons a t ih =>
    by_cases h : p a = true
    · simpa [List.dropWhile_cons_of_pos h] using ih
    · simp [List.dropWhile_cons_of_neg h]

theorem dropWhile_eq_self_of_prefix {α : Type} {p : α → Bool} {l₁ l₂ : List α}
    (hpre : l₁ <+: l₂) (h₂ : l₂.dropWhile p = l₂) : l₁.dropWhile p = l₁ := by
  cases l₁ with
  | nil => rfl
  | cons a t =>
    obtain ⟨rest, hrest⟩ := hpre
    subst hrest
    by_cases h : p a = true
    · exfalso
      rw [List.cons_append, List.dropWhile_cons_of_pos h] at h₂
      have hle := (List.dropWhile_sublist (l := t ++ rest) p).length_le
      have hlen := congrArg List.length h₂
      simp [List.length_append] at hlen hle
      omega
    · simp [List.dropWhile_cons_of_neg h]

theorem reverse_dropWhile_reverse_prefix {α : Type} (p : α → Bool) (l : List α) :
    (l.reverse.dropWhile p).reverse <+: l := by
  refine List.reverse_suffix.mp ?_
  simpa using List.dropWhile_suffix (l := l.reverse) p

theorem trimChars_idem (l : List Char) : trimChars (trimChars l) = trimChars l := by
  have hAfix : (l.dropWhile isJsWs).dropWhile isJsWs = l.dropWhile isJsWs :=
    dropWhile_idem _ l
  have hBA : ((l.dropWhile isJsWs).reverse.dropWhile isJsWs).reverse <+: l.dropWhile isJsWs :=
    reverse_dropWhile_reverse_prefix _ _
  have hB := dropWhile_eq_self_of_prefix hBA hAfix
  unfold trimChars
  rw [hB, List.reverse_reverse, dropWhile_idem]

theorem trimChars_fixed {l : List Char} (h : trimChars l = l) :
    l.dropWhile isJsWs = l ∧ l.reverse.dropWhile isJsWs = l.reverse := by
  have hlen := congrArg List.length h
  unfold trimChars at hlen
  rw [List.length_reverse] at hlen
  have hsA : l.dropWhile isJsWs <:+ l := List.dropWhile_suffix _
  have hsC : (l.dropWhile isJsWs).reverse.dropWhile isJsWs <:+ (l.dropWhile isJsWs).reverse :=
    List.dropWhile_suffix _
  have hlA : (l.dropWhile isJsWs).length ≤ l.length := hsA.length_le
  have hlC : ((l.dropWhile isJsWs).reverse.dropWhile isJsWs).length ≤
      (l.dropWhile isJsWs).length := by
    simpa using hsC.length_le
  have hAeq : l.dropWhile isJsWs = l := hsA.eq_of_length (by omega)
  refine ⟨hAeq, ?_⟩
  have hCeq : (l.dropWhile isJsWs).reverse.dropWhile isJsWs = (l.dropWhile isJsWs).reverse :=
    hsC.eq_of_length (by simp; omega)
  rw [hAeq] at hCeq
  exact hCeq

theorem trimChars_append_newline {l : List Char} (h : trimChars l = l) :
    trimChars (l ++ ['\n']) = l := by
  obtain ⟨hA, hR⟩ := trimChars_fixed h
  cases l with
  | nil => decide
  | cons a t =>
    have ha : isJsWs a = false := by
      by_cases hc : isJsWs a = true
      · exfalso
        rw [List.dropWhile_cons_of_pos hc] at hA
        have hle := (List.dropWhile_sublist (l := t) isJsWs).length_le
        have hlen := congrArg List.length hA
        simp at hlen
        omega
      · exact Bool.not_eq_true _ ▸ by simpa using hc
    unfold trimChars
    rw [List.cons_append, List.dropWhile_cons_of_neg (by simp [ha])]
    rw [show (a :: (t ++ ['\n'])).reverse = '\n' :: (a :: t).reverse from by simp]
    rw [List.dropWhile_cons_of_pos (by decide), hR, List.reverse_reverse]

theorem jsTrim_idem (s : String) : jsTrim (jsTrim s) = jsTrim s :=
  congrArg String.mk (trimChars_idem s.data)

theorem jsTrim_append_newline {s : String} (h : jsTrim s = s) : jsTrim (s ++ "\n") = s := by
  have hl : trimChars s.data = s.data := congrArg String.data h
  cases s with
  | mk l => exact congrArg String.mk (trimChars_append_newline hl)

theorem str_empty_append (s : String) : "" ++ s = s := by
  cases s with
  | mk l => rfl

theorem getLast?_cons_getD {α : Type} (a x : α) (l : List α) :
    ((a :: l).getLast?).getD x = (l.getLast?).getD a := by
  cases l with
  | nil => rfl
  | cons b t =>
    rw [List.getLast?_cons_cons]
    cases hg : (b :: t).getLast? with
    | none => exact absurd (List.getLast?_eq_none_iff.mp hg) (by simp)
    | some y => rfl

theorem scan_fst_foldl (ps : List GPart) (acc : String × String) :
    (ps.foldl scanStep acc).1 = ((ps.filterMap imageURIOf).getLast?).getD acc.1 := by
  induction ps generalizing acc with
  | nil => rfl
  | cons p t ih =>
    rw [List.foldl_cons]
    cases h : imageURIOf p with
    | none =>
      have hfst : (scanStep acc p).1 = acc.1 := by simp [scanStep, h]
      rw [List.filterMap_cons_none h, ih, hfst]
    | some u =>
      have hfst : (scanStep acc p).1 = u := by simp [scanStep, h]
      rw [List.filterMap_cons_some h, ih, hfst, getLast?_cons_getD]

theorem scan_foldl_const (ps : List GPart) (acc : String × String)
    (himg : ∀ p ∈ ps, imageURIOf p = none)
    (htxt : ∀ p ∈ ps, ∀ t, p.text = some t → jsTrim t = "") :
    ps.foldl scanStep acc = acc := by
  induction ps generalizing acc with
  | nil => rfl
  | cons p t ih =>
    rw [List.foldl_cons]
    have hstep : scanStep acc p = acc := by
      have h1 : imageURIOf p = none := himg p (List.mem_cons_self _ _)
      unfold scanStep
      rw [h1]
      cases hp : p.text with
      | none => rfl
      | some tx =>
        have h2 := htxt p (List.mem_cons_self _ _) tx hp
        simp [h2]
    rw [hstep]
    exact ih acc (fun q hq => himg q (List.mem_cons_of_mem _ hq))
      (fun q hq => htxt q (List.mem_cons_of_mem _ hq))

theorem dataUriEncode_ne_empty (m d : String) : dataUriEncode m d ≠ "" := by
  intro h
  have hd := congrArg String.data h
  simp only [dataUriEncode, String.data_append] at hd
  rcases List.append_eq_nil.mp (List.append_eq_nil.mp (List.append_eq_nil.mp hd).1).1
    with ⟨h5, _⟩
  exact (by decide : ("data:".data : List Char) ≠ []) h5

theorem lastImageURI_encode {ps : List GPart} {uri : String}
    (h : lastImageURI ps = some uri) : ∃ m d, uri = dataUriEncode m d := by
  unfold lastImageURI at h
  have hmem : uri ∈ ps.filterMap imageURIOf := by
    obtain ⟨ys, hys⟩ := List.getLast?_eq_some_iff.mp h
    rw [hys]
    simp
  rw [List.mem_filterMap] at hmem
  obtain ⟨p, _, hp⟩ := hmem
  obtain ⟨pt, pin, pex⟩ := p
  cases pin with
  | none => simp [imageURIOf] at hp
  | some idta =>
    by_cases hs : strStartsWith idta.mimeType "image/" = true
    · have he : imageURIOf ⟨pt, some idta, pex⟩ = some (dataUriEncode idta.mimeType idta.data) := by
        simp [imageURIOf, hs]
      rw [he] at hp
      exact ⟨idta.mimeType, idta.data, (Option.some.inj hp).symm⟩
    · have he : imageURIOf ⟨pt, some idta, pex⟩ = none := by
        simp [imageURIOf, hs]
      rw [he] at hp
      cases hp

theorem lastImageURI_ne_nil {ps : List GPart} {uri : String}
    (h : lastImageURI ps = some uri) : ps ≠ [] := by
  intro he
  subst he
  simp [lastImageURI] at h

theorem parseORReply_some (m : ORMsg) :
    parseORReply (some m) =
      (match firstImageUrl m with
       | some u => ⟨RKind.image, u⟩
       | none =>
         match m.content with
         | some c =>
           if strStartsWith c "data:image/" = true then ⟨RKind.image, c⟩
           else if jsTrim c ≠ "" then ⟨RKind.text, c⟩
           else ⟨RKind.text, noContentPlaceholder⟩
         | none => ⟨RKind.text, noContentPlaceholder⟩) := rfl

/-! ## Claim C3: empty-but-well-formed replies -/

/-- C3 (amended): a success payload carrying neither an image nor
non-blank text yields a Text result holding the fixed placeholder in
variant A (for all such payloads, a missing message included), and in
variant B whenever the parts list is non-empty; variant B instead raises
on an empty or missing parts list (see the counterexample). -/
theorem C3_empty_reply_placeholder (msg? : Option ORMsg) (parts : List GPart)
    (hA : ∀ m, msg? = some m → firstImageUrl m = none ∧
          ∀ c, m.content = some c → strStartsWith c "data:image/" = false ∧ jsTrim c = "")
    (hne : parts ≠ [])
    (hBimg : ∀ p ∈ parts, imageURIOf p = none)
    (hBtxt : ∀ p ∈ parts, ∀ t, p.text = some t → jsTrim t = "") :
    parseORReply msg? = ⟨RKind.text, noContentPlaceholder⟩ ∧
    callGeminiParse ⟨[⟨some ⟨parts⟩⟩]⟩ = .ok ⟨RKind.text, noContentPlaceholder⟩ := by
  constructor
  · cases msg? with
    | none => rfl
    | some m =>
      obtain ⟨himg, hc⟩ := hA m rfl
      rw [parseORReply_some, himg]
      cases hcc : m.content with
      | none => rfl
      | some c =>
        obtain ⟨h1, h2⟩ := hc c hcc
        simp [h1, h2]
  · have hscan : scanParts parts = ("", "") := scan_foldl_const parts ("", "") hBimg hBtxt
    have hform : callGeminiParse ⟨[⟨some ⟨parts⟩⟩]⟩ =
        (if parts.isEmpty then .error "Gemini response has no valid parts"
         else if (scanParts parts).1 ≠ "" then .ok ⟨.image, (scanParts parts).1⟩
         else if jsTrim (scanParts parts).2 ≠ "" then .ok ⟨.text, jsTrim (scanParts parts).2⟩
         else .ok ⟨.text, noContentPlaceholder⟩) := rfl
    rw [hform, hscan]
    simp [List.isEmpty_iff, hne, jsTrim, trimChars]

theorem C3_empty_reply_placeholder_witness :
    parseORReply (some ⟨some [], some "  "⟩) = ⟨RKind.text, noContentPlaceholder⟩ ∧
    callGeminiParse ⟨[⟨some ⟨[⟨some " ", none, none⟩]⟩⟩]⟩ = .ok ⟨RKind.text, noContentPlaceholder⟩ := by
  refine C3_empty_reply_placeholder (some ⟨some [], some "  "⟩) [⟨some " ", none, none⟩]
    ?_ (by decide) ?_ ?_
  · intro m hm
    cases hm
    refine ⟨by decide, ?_⟩
    intro c hc
    cases hc
    exact ⟨by decide, by decide⟩
  · intro p hp
    rw [List.mem_singleton] at hp
    subst hp
    decide
  · intro p hp t ht
    rw [List.mem_singleton] at hp
    subst hp
    cases ht
    decide

/-- C3 counterexample: in variant B a well-formed success payload with an
empty parts list raises an error rather than producing the placeholder. -/
theorem C3_counterexample :
    callGeminiParse ⟨[⟨some ⟨[]⟩⟩]⟩ = .error "Gemini response has no valid parts" := by decide

/-! ## Claim C7: image precedence -/

/-- C7 (amended): a success payload carrying an inline image makes
dispatch return an Image-kind result regardless of any co-present text —
but variant A consults only the FIRST entry of the `images` array (or a
data-URI content string), while variant B's scan keeps the LAST image part
found. -/
theorem C7_image_precedence (m : ORMsg) (u : String) (hA : firstImageUrl m = some u)
    (parts : List GPart) (uri : String) (hB : lastImageURI parts = some uri) :
    parseORReply (some m) = ⟨RKind.image, u⟩ ∧
    callGeminiParse ⟨[⟨some ⟨parts⟩⟩]⟩ = .ok ⟨RKind.image, uri⟩ := by
  constructor
  · rw [parseORReply_some, hA]
  · have hne : parts ≠ [] := lastImageURI_ne_nil hB
    have hfst : (scanParts parts).1 = uri := by
      unfold scanParts
      rw [scan_fst_foldl]
      unfold lastImageURI at hB
      rw [hB]
      rfl
    have hnu : uri ≠ "" := by
      obtain ⟨mm, dd, rfl⟩ := lastImageURI_encode hB
      exact dataUriEncode_ne_empty mm dd
    have hform : callGeminiParse ⟨[⟨some ⟨parts⟩⟩]⟩ =
        (if parts.isEmpty then .error "Gemini response has no valid parts"
         else if (scanParts parts).1 ≠ "" then .ok ⟨.image, (scanParts parts).1⟩
         else if jsTrim (scanParts parts).2 ≠ "" then .ok ⟨.text, jsTrim (scanParts parts).2⟩
         else .ok ⟨.text, noContentPlaceholder⟩) := rfl
    rw [hform, if_neg (by simp [List.isEmpty_iff, hne]), if_pos (by rw [hfst]; exact hnu), hfst]

theorem C7_image_precedence_witness :
    parseORReply (some ⟨some [⟨some ⟨some "data:image/png;base64,QQ=="⟩⟩], some "also text"⟩) =
      ⟨RKind.image, "data:image/png;base64,QQ=="⟩ ∧
    callGeminiParse ⟨[⟨some ⟨[⟨some "hi", none, none⟩, ⟨none, some ⟨"image/png", "AAAA"⟩, none⟩]⟩⟩]⟩ =
      .ok ⟨RKind.image, "data:image/png;base64,AAAA"⟩ :=
  C7_image_precedence _ _ (by decide) _ _ (by decide)

/-- C7 counterexample: in variant B, with two inline image parts the LAST
one's data-URI is returned, not the first one's. -/
theorem C7_counterexample :
    callGeminiParse
        ⟨[⟨some ⟨[⟨none, some ⟨"image/png", "AAAA"⟩, none⟩, ⟨none, some ⟨"image/jpeg", "BBBB"⟩, none⟩]⟩⟩]⟩ =
      .ok ⟨RKind.image, "data:image/jpeg;base64,BBBB"⟩ ∧
    ("data:image/jpeg;base64,BBBB" : String) ≠ "data:image/png;base64,AAAA" := by decide

/-! ## Claim C6: Text part round-trip -/

/-- C6 (amended): for non-empty text with a non-blank trim that is not a
data-URI, variant A's encode-then-decode round trip returns the text
unchanged, while variant B trims surrounding whitespace on encode and its
round trip returns `jsTrim v` — the original text exactly when it carries
no surrounding whitespace. -/
theorem C6_text_roundtrip (v : String) (h0 : v ≠ "")
    (h1 : strStartsWith v "data:image/" = false) (h2 : jsTrim v ≠ "") :
    (toUpstreamA ⟨some v, none, none⟩ = .ok (.text v) ∧
     parseORReply (some ⟨none, some v⟩) = ⟨RKind.text, v⟩) ∧
    (toUpstreamB ⟨some v, none, none⟩ = ⟨some (jsTrim v), none, none⟩ ∧
     callGeminiParse ⟨[⟨some ⟨[⟨some (jsTrim v), none, none⟩]⟩⟩]⟩ = .ok ⟨RKind.text, jsTrim v⟩) := by
  have hw : jsTrim (jsTrim v) = jsTrim v := jsTrim_idem v
  refine ⟨⟨by simp [toUpstreamA, h0], ?_⟩, ⟨by simp [toUpstreamB, h0], ?_⟩⟩
  · unfold parseORReply firstImageUrl
    simp [h1, h2]
  · have hscan : scanParts [⟨some (jsTrim v), none, none⟩] = ("", "" ++ jsTrim v ++ "\n") := by
      unfold scanParts
      rw [List.foldl_cons]
      show scanStep ("", "") ⟨some (jsTrim v), none, none⟩ = _
      unfold scanStep imageURIOf
      simp [h2, hw]
    rw [str_empty_append] at hscan
    have hform : callGeminiParse ⟨[⟨some ⟨[⟨some (jsTrim v), none, none⟩]⟩⟩]⟩ =
        (if ([⟨some (jsTrim v), none, none⟩] : List GPart).isEmpty then
           .error "Gemini response has no valid parts"
         else if (scanParts [⟨some (jsTrim v), none, none⟩]).1 ≠ "" then
           .ok ⟨.image, (scanParts [⟨some (jsTrim v), none, none⟩]).1⟩
         else if jsTrim (scanParts [⟨some (jsTrim v), none, none⟩]).2 ≠ "" then
           .ok ⟨.text, jsTrim (scanParts [⟨some (jsTrim v), none, none⟩]).2⟩
         else .ok ⟨.text, noContentPlaceholder⟩) := rfl
    have htrim : jsTrim (jsTrim v ++ "\n") = jsTrim v := jsTrim_append_newline hw
    rw [hform, hscan]
    simp [htrim, h2]

theorem C6_text_roundtrip_witness :
    (toUpstreamA ⟨some "hello", none, none⟩ = .ok (.text "hello") ∧
     parseORReply (some ⟨none, some "hello"⟩) = ⟨RKind.text, "hello"⟩) ∧
    (toUpstreamB ⟨some "hello", none, none⟩ = ⟨some (jsTrim "hello"), none, none⟩ ∧
     callGeminiParse ⟨[⟨some ⟨[⟨some (jsTrim "hello"), none, none⟩]⟩⟩]⟩ =
       .ok ⟨RKind.text, jsTrim "hello"⟩) :=
  C6_text_roundtrip "hello" (by decide) (by decide) (by decide)

/-- C6 counterexample: variant B trims on encode, so the round trip of
`" a "` yields `"a"`, not the original string. -/
theorem C6_counterexample :
    toUpstreamB ⟨some " a ", none, none⟩ = ⟨some "a", none, none⟩ ∧
    callGeminiParse ⟨[⟨some ⟨[⟨some "a", none, none⟩]⟩⟩]⟩ = .ok ⟨RKind.text, "a"⟩ ∧
    ("a" : String) ≠ " a " := by decide

/-! ## Data-URI round-trip lemmas -/

theorem head?_drop {α : Type} (l : List α) (i : Nat) : (l.drop i).head? = l[i]? := by
  induction l generalizing i with
  | nil => simp
  | cons a t ih =>
    cases i with
    | zero => simp
    | succ j => simp [ih j]

theorem b64_no_semicolon {c : Char} (h : isBase64Char c = true) : c ≠ ';' := by
  intro hc
  subst hc
  exact absurd h (by decide)

theorem b64_notLineTerm {c : Char} (h : isBase64Char c = true) : notLineTerm c = true := by
  have h1 : c ≠ '\n' := by intro hc; subst hc; exact absurd h (by decide)
  have h2 : c ≠ '\r' := by intro hc; subst hc; exact absurd h (by decide)
  have h3 : c ≠ '\u2028' := by intro hc; subst hc; exact absurd h (by decide)
  have h4 : c ≠ '\u2029' := by intro hc; subst hc; exact absurd h (by decide)
  simp [notLineTerm, h1, h2, h3, h4]

theorem getLast_filter_range (k : Nat) (p : Nat → Bool) :
    ∀ n, k < n → p k = true → (∀ i, i < n → p i = true → i ≤ k) →
    ((List.range n).filter p).getLast? = some k := by
  intro n
  induction n with
  | zero => omega
  | succ m ih =>
    intro hk hpk hmax
    rw [List.range_succ, List.filter_append]
    by_cases hm : k = m
    · subst hm
      rw [show List.filter p [k] = [k] from by simp [hpk]]
      exact List.getLast?_concat _
    · have hk' : k < m := by omega
      have hpm : p m = false := by
        by_cases hq : p m = true
        · exact absurd (hmax m (by omega) hq) (by omega)
        · simpa using hq
      rw [show List.filter p [m] = [] from by simp [hpm], List.append_nil]
      exact ih hk' hpk (fun i hi hp => hmax i (by omega) hp)

theorem dataUriMatch_roundtrip (m d : String) (hm : m ≠ "")
    (hml : m.data.all notLineTerm = true) (hd : d.data.all isBase64Char = true) :
    dataUriMatch (dataUriEncode m d) = some (m, d) := by
  obtain ⟨M⟩ := m
  obtain ⟨D⟩ := d
  have hMne : M ≠ [] := fun hM => hm (congrArg String.mk hM)
  have hMpos : 0 < M.length := List.length_pos.mpr hMne
  have hdata : (dataUriEncode ⟨M⟩ ⟨D⟩).data = "data:".data ++ (M ++ (sepStr.data ++ D)) := by
    simp [dataUriEncode]
  have hrest : ("data:".data ++ (M ++ (sepStr.data ++ D))).drop 5 = M ++ (sepStr.data ++ D) :=
    List.drop_left' (by decide)
  -- the split position M.length is a candidate
  have hpk : (decide (1 ≤ M.length) &&
      ((M ++ (sepStr.data ++ D)).take M.length).all notLineTerm &&
      sepStr.data.isPrefixOf ((M ++ (sepStr.data ++ D)).drop M.length) &&
      (((M ++ (sepStr.data ++ D)).drop M.length).drop 8).all notLineTerm) = true := by
    rw [List.take_left M _, List.drop_left M _]
    simp only [Bool.and_eq_true, decide_eq_true_eq]
    refine ⟨⟨⟨by omega, hml⟩, ?_⟩, ?_⟩
    · exact List.isPrefixOf_iff_prefix.mpr (List.prefix_append _ _)
    · rw [List.drop_left' (by decide : (sepStr.data).length = 8)]
      rw [List.all_eq_true] at hd ⊢
      exact fun c hc => b64_notLineTerm (hd c hc)
  -- no larger split position is a candidate
  have hmax : ∀ i, i < (M ++ (sepStr.data ++ D)).length + 1 →
      (decide (1 ≤ i) && ((M ++ (sepStr.data ++ D)).take i).all notLineTerm &&
       sepStr.data.isPrefixOf ((M ++ (sepStr.data ++ D)).drop i) &&
       (((M ++ (sepStr.data ++ D)).drop i).drop 8).all notLineTerm) = true →
      i ≤ M.length := by
    intro i _ hp
    by_contra hgt
    simp only [Bool.and_eq_true] at hp
    obtain ⟨⟨⟨_, _⟩, hp3⟩, _⟩ := hp
    obtain ⟨t, ht⟩ := List.isPrefixOf_iff_prefix.mp hp3
    have hhead : ((M ++ (sepStr.data ++ D)).drop i).head? = some ';' := by
      rw [← ht]
      rfl
    rw [head?_drop] at hhead
    obtain ⟨j, rfl⟩ : ∃ j, i = M.length + (j + 1) := ⟨i - M.length - 1, by omega⟩
    rw [List.getElem?_append_right (by omega)] at hhead
    rw [show M.length + (j + 1) - M.length = j + 1 from by omega] at hhead
    rw [show sepStr.data ++ D = ';' :: ("base64,".data ++ D) from rfl] at hhead
    rw [List.getElem?_cons_succ] at hhead
    have hsemi := List.getElem?_mem hhead
    rw [List.mem_append] at hsemi
    rcases hsemi with hsemi | hsemi
    · exact absurd hsemi (by decide)
    · rw [List.all_eq_true] at hd
      exact b64_no_semicolon (hd ';' hsemi) rfl
  have hlast : (matchCandidates (M ++ (sepStr.data ++ D))).getLast? = some M.length := by
    unfold matchCandidates
    exact getLast_filter_range M.length _ ((M ++ (sepStr.data ++ D)).length + 1)
      (by simp [List.length_append]; omega) hpk hmax
  have hpre : "data:".data.isPrefixOf (dataUriEncode ⟨M⟩ ⟨D⟩).data = true := by
    rw [hdata]
    exact List.isPrefixOf_iff_prefix.mpr (List.prefix_append _ _)
  unfold dataUriMatch
  rw [if_pos hpre, hdata, hrest, hlast]
  simp only [List.take_left, List.drop_left,
    List.drop_left' (by decide : (sepStr.data).length = 8)]

/-! ## Claim C5: inline-media data-URI round trip -/

/-- C5 (amended): for a non-empty MIME type free of line terminators and a
base64 payload, encoding to `data:m;base64,d` and decoding with the
anchored greedy parser (variant A) yields exactly the original pair;
variant B's split-plus-filter destructure does so too provided the payload
is non-empty (an empty payload is dropped by `filter(Boolean)` — see the
counterexample). -/
theorem C5_media_roundtrip (m d : String) (hm : m ≠ "")
    (hml : m.data.all notLineTerm = true) (hd : d.data.all isBase64Char = true) :
    dataUriMatch (dataUriEncode m d) = some (m, d) ∧
    (d ≠ "" → bParse (dataUriEncode m d) = some (m, d)) := by
  have h := dataUriMatch_roundtrip m d hm hml hd
  refine ⟨h, fun hdne => ?_⟩
  unfold bParse splitDestructure
  rw [h]
  simp [hdne]

theorem C5_media_roundtrip_witness :
    dataUriMatch (dataUriEncode "image/png" "QUJD") = some ("image/png", "QUJD") ∧
    (("QUJD" : String) ≠ "" →
      bParse (dataUriEncode "image/png" "QUJD") = some ("image/png", "QUJD")) :=
  C5_media_roundtrip "image/png" "QUJD" (by decide) (by decide) (by decide)

/-- C5 counterexample: variant B's split-based parser fails to decode the
data-URI of an inline-media part with an empty base64 payload, so the round
trip does not return the original pair. -/
theorem C5_counterexample :
    ¬ bParse (dataUriEncode "image/png" "") = some ("image/png", "") := by decide

/-! ## Windower lemmas -/

theorem lastIdxWhereI_some {α : Type} [Inhabited α] {l : List α} {p : Nat → α → Bool} {n : Nat}
    (h : lastIdxWhereI l p = some n) : n < l.length ∧ p n (l.getD n default) = true := by
  unfold lastIdxWhereI at h
  have hmem : n ∈ (List.range l.length).filter (fun i => p i (l.getD i default)) := by
    obtain ⟨ys, hys⟩ := List.getLast?_eq_some_iff.mp h
    rw [hys]
    simp
  rw [List.mem_filter, List.mem_range] at hmem
  exact hmem

theorem jsSlice_nat {α : Type} (l : List α) (s e : Nat) (hs : s ≤ l.length) (he : e ≤ l.length) :
    jsSlice l (s : Int) (e : Int) = (l.take e).drop s := by
  have h1 : (if (s : Int) < 0 then max ((l.length : Int) + (s : Int)) 0
      else min (s : Int) (l.length : Int)) = (s : Int) := by
    rw [if_neg (by omega), Int.min_def, if_pos (by omega)]
  have h2 : (if (e : Int) < 0 then max ((l.length : Int) + (e : Int)) 0
      else min (e : Int) (l.length : Int)) = (e : Int) := by
    rw [if_neg (by omega), Int.min_def, if_pos (by omega)]
  simp only [jsSlice]
  rw [h1, h2, Int.toNat_ofNat, Int.toNat_ofNat]

theorem jsSlice_neg_one {α : Type} (l : List α) (e : Nat) (hl : 1 ≤ l.length)
    (he : e ≤ l.length) :
    jsSlice l (-1) (e : Int) = (l.take e).drop (l.length - 1) := by
  have h1 : (if (-1 : Int) < 0 then max ((l.length : Int) + (-1 : Int)) 0
      else min (-1 : Int) (l.length : Int)) = ((l.length - 1 : Nat) : Int) := by
    rw [if_pos (by omega), Int.max_def]
    by_cases hc : ((l.length : Int) + (-1 : Int)) ≤ 0
    · rw [if_pos hc]
      omega
    · rw [if_neg hc]
      omega
  have h2 : (if (e : Int) < 0 then max ((l.length : Int) + (e : Int)) 0
      else min (e : Int) (l.length : Int)) = (e : Int) := by
    rw [if_neg (by omega), Int.min_def, if_pos (by omega)]
  simp only [jsSlice]
  rw [h1, h2, Int.toNat_ofNat, Int.toNat_ofNat]

theorem drop_pred_eq_singleton {α : Type} [Inhabited α] (l : List α) (hl : l ≠ []) :
    l.drop (l.length - 1) = [l.getD (l.length - 1) default] := by
  have hpos : 0 < l.length := List.length_pos.mpr hl
  have hlt : l.length - 1 < l.length := by omega
  rw [List.drop_eq_getElem_cons hlt]
  rw [show l.length - 1 + 1 = l.length from by omega, List.drop_length]
  rw [List.getD_eq_getElem?_getD, List.getElem?_eq_getElem hlt]
  rfl

/-! ## Claim C2: window extraction -/

/-- C2 (amended): for every history with a `user` message, the window ends
at the last `user` message and, when a prior `model` message exists, starts
at the last such message — in both variants, matching the claim.  When no
prior `model` message exists, only variant B's window equals the whole
history up to the last `user` message; variant A (through `slice(-1, u+1)`
and its single-element fallback) returns just the last `user` message. -/
theorem C2_window (h : List GMessage) (u : Nat) (hu : lastUserIdx h = some u) :
    relevantHistoryB h = claimWindow h ∧
    (∀ mi, lastModelBefore h u = some mi → relevantHistoryA h = claimWindow h) ∧
    (lastModelBefore h u = none →
      relevantHistoryA h = [h.getD u default] ∧ claimWindow h = h.take (u + 1)) := by
  have hu0 : lastIdxWhereI h (fun _ m => m.role == "user") = some u := hu
  have hule : u < h.length := (lastIdxWhereI_some hu0).1
  have hfu : findLastIndexP h (fun m => m.role == "user") = (u : Int) := by
    unfold findLastIndexP findLastIndexI
    rw [hu0]
  have hune : ((u : Int)) ≠ -1 := by omega
  have hcast : ((u : Int)) + 1 = ((u + 1 : Nat) : Int) := by omega
  have hbridge : (fun (i : Nat) (m : GMessage) =>
        m.role == "model" && decide ((i : Int) < ((u : Nat) : Int)))
      = (fun (i : Nat) (m : GMessage) => m.role == "model" && decide (i < u)) := by
    funext i m
    congr 1
    exact decide_eq_decide.mpr Int.ofNat_lt
  have hcw : claimWindow h = (match lastModelBefore h u with
      | some mi => (h.take (u + 1)).drop mi
      | none => h.take (u + 1)) := by
    unfold claimWindow
    rw [hu]
  refine ⟨?_, ?_, ?_⟩
  · simp only [relevantHistoryB]
    rw [hfu, hbridge, if_pos hune]
    cases hmi : lastModelBefore h u with
    | some mi =>
      have hmi0 : lastIdxWhereI h
          (fun i (m : GMessage) => m.role == "model" && decide (i < u)) = some mi := hmi
      have hmp := lastIdxWhereI_some hmi0
      have hmiu : mi < u := by
        have h2 := hmp.2
        simp only [Bool.and_eq_true, decide_eq_true_eq] at h2
        exact h2.2
      have hfm : findLastIndexI h
          (fun i (m : GMessage) => m.role == "model" && decide (i < u)) = (mi : Int) := by
        unfold findLastIndexI
        rw [hmi0]
      rw [hfm, if_neg (by omega : ¬((mi : Int)) = -1), hcast]
      rw [jsSlice_nat h mi (u + 1) (by omega) (by omega)]
      rw [hcw, hmi]
    | none =>
      have hmi0 : lastIdxWhereI h
          (fun i (m : GMessage) => m.role == "model" && decide (i < u)) = none := hmi
      have hfm : findLastIndexI h
          (fun i (m : GMessage) => m.role == "model" && decide (i < u)) = -1 := by
        unfold findLastIndexI
        rw [hmi0]
      rw [hfm, if_pos rfl, hcast]
      rw [show (0 : Int) = ((0 : Nat) : Int) from rfl]
      rw [jsSlice_nat h 0 (u + 1) (by omega) (by omega)]
      rw [List.drop_zero, hcw, hmi]
  · intro mi hmi
    have hmi0 : lastIdxWhereI h
        (fun i (m : GMessage) => m.role == "model" && decide (i < u)) = some mi := hmi
    have hmp := lastIdxWhereI_some hmi0
    have hmlt : mi < h.length := hmp.1
    have hmiu : mi < u := by
      have h2 := hmp.2
      simp only [Bool.and_eq_true, decide_eq_true_eq] at h2
      exact h2.2
    have hfm : findLastIndexI h
        (fun i (m : GMessage) => m.role == "model" && decide (i < u)) = (mi : Int) := by
      unfold findLastIndexI
      rw [hmi0]
    simp only [relevantHistoryA]
    rw [hfu, hbridge, if_pos hune, hfm, hcast]
    rw [jsSlice_nat h mi (u + 1) (by omega) (by omega)]
    have hblen : ((h.take (u + 1)).drop mi).length = u + 1 - mi := by
      rw [List.length_drop, List.length_take]
      omega
    rw [if_neg (fun hc => by rw [hblen] at hc; omega)]
    rw [hcw, hmi]
  · intro hmi
    have hmi0 : lastIdxWhereI h
        (fun i (m : GMessage) => m.role == "model" && decide (i < u)) = none := hmi
    have hfm : findLastIndexI h
        (fun i (m : GMessage) => m.role == "model" && decide (i < u)) = -1 := by
      unfold findLastIndexI
      rw [hmi0]
    constructor
    · simp only [relevantHistoryA]
      rw [hfu, hbridge, if_pos hune, hfm, hcast]
      rw [jsSlice_neg_one h (u + 1) (by omega) (by omega)]
      by_cases hend : u + 1 = h.length
      · have hbase : (h.take (u + 1)).drop (h.length - 1) = [h.getD u default] := by
          rw [hend, List.take_length]
          rw [drop_pred_eq_singleton h (by intro hnil; rw [hnil] at hule; simp at hule)]
          rw [show h.length - 1 = u from by omega]
        rw [hbase, if_neg (fun hc => by simp at hc)]
      · have hbase : (h.take (u + 1)).drop (h.length - 1) = [] := by
          apply List.drop_eq_nil_of_le
          rw [List.length_take]
          have hmin : min (u + 1) h.length = u + 1 := Nat.min_eq_left (by omega)
          rw [hmin]
          omega
        rw [hbase, if_pos ⟨rfl, hune⟩]
        rw [show ((u : Int)).toNat = u from Int.toNat_ofNat u]
    · rw [hcw, hmi]

theorem C2_window_witness :
    relevantHistoryB [⟨"model", []⟩, ⟨"user", []⟩] = claimWindow [⟨"model", []⟩, ⟨"user", []⟩] ∧
    (∀ mi, lastModelBefore [⟨"model", []⟩, ⟨"user", []⟩] 1 = some mi →
      relevantHistoryA [⟨"model", []⟩, ⟨"user", []⟩] = claimWindow [⟨"model", []⟩, ⟨"user", []⟩]) ∧
    (lastModelBefore [⟨"model", []⟩, ⟨"user", []⟩] 1 = none →
      relevantHistoryA [⟨"model", []⟩, ⟨"user", []⟩] =
        [[⟨"model", []⟩, ⟨"user", []⟩].getD 1 default] ∧
      claimWindow [⟨"model", []⟩, ⟨"user", []⟩] = [⟨"model", []⟩, ⟨"user", []⟩].take (1 + 1)) :=
  C2_window [⟨"model", []⟩, ⟨"user", []⟩] 1 (by decide)

/-- C2 counterexample: on the history `[user, user]` (no prior `model`
message) variant A's extracted window is only the final `user` message, not
the whole history up to it as the claim states. -/
theorem C2_counterexample :
    relevantHistoryA [⟨"user", []⟩, ⟨"user", []⟩] = [⟨"user", []⟩] ∧
    claimWindow [⟨"user", []⟩, ⟨"user", []⟩] = [⟨"user", []⟩, ⟨"user", []⟩] ∧
    relevantHistoryA [⟨"user", []⟩, ⟨"user", []⟩] ≠ claimWindow [⟨"user", []⟩, ⟨"user", []⟩] := by
  decide
